import Mathlib

/-!
# Verification of the go-picker accessor / error-collection engine

Shallow embedding of the `picker` Go package (repository `karimagnusson/go-picker`).
The repository carries several historical revisions of the same design; the two
that the claims reference are embedded here:

* namespace `P1` — the newest revision (the first unit of `picker.go` and
  `src/unnamed/part_003`): a `Picker` holds a `data` mapping, an `errors`
  map from path to reason, and an optional `parentPicker` back-reference with
  a `parentKey`.  Errors carry reasons ("missing"/"invalid").
* namespace `P2` — the older revision (the last unit of `picker.go`, the one
  `picker_test.go` and `struct.go` compile against): a `Picker` holds a
  `data` mapping, a plain `errorKeys` list, an `isNested` flag and a
  `nestedPicker` back-reference; `addError` recurses to the root.  The
  reflection struct binder (`struct.go`) runs over this revision.

Go pointer mutation is embedded by explicit state passing: a `World` is the
list of all `Picker` objects allocated so far, and a picker value in Go
corresponds to an index into that list.  Every operation that mutates a
picker through a pointer returns the updated `World`.

The decoded JSON document (`map[string]interface{}` built by
`encoding/json.Unmarshal`) is embedded as `JVal`: Go `string` is `vStr`,
`float64` is `vNum` (rationals stand in for the float payload; no claim
depends on float rounding), `int64` values placed in maps by hand are
`vInt`, `bool` is `vBool`, JSON `null` is `vNull`, `map[string]interface{}`
is `vObj` and `[]interface{}` is `vArr`.  Go type assertions such as
`p.data[key].(string)` succeed exactly when the stored constructor matches.
-/

/-- A decoded generic document value (Go `interface{}` holding JSON data). -/
inductive JVal where
  | vStr (s : String)
  | vNum (q : Rat)
  | vInt (n : Int)
  | vBool (b : Bool)
  | vNull
  | vObj (fields : List (String × JVal))
  | vArr (items : List JVal)

/-- A Go `map[string]interface{}`, embedded as an association list. -/
abbrev JObj := List (String × JVal)

/-- Go map read `m[k]`: the value stored under `k`, if any. -/
def jLookup (m : JObj) (k : String) : Option JVal :=
  match m with
  | [] => none
  | (k2, v) :: rest => if k2 = k then some v else jLookup rest k

/-- Go map write `m[k] = v` on an association list: overwrite the entry for
`k` if present, otherwise add one.  Used for the error collector
(`map[string]string`). -/
def mapInsert (m : List (String × String)) (k v : String) : List (String × String) :=
  match m with
  | [] => [(k, v)]
  | (k2, v2) :: rest =>
      if k2 = k then (k, v) :: rest else (k2, v2) :: mapInsert rest k v

/-- The element type `T` of a Go generic instantiation `GetTypedArray[T]`
(respectively the `ValueType` enumeration of the older revision), for the
scalar instantiations the package uses. -/
inductive TypeTag where
  | tString
  | tInt
  | tFloat
  | tBool

/-- The Go type assertion `item.(T)`: succeeds exactly when the dynamic type
of the stored value is `T` (an `int64` does not assert as `float64`, and
vice versa). -/
def assertTag : JVal → TypeTag → Bool
  | JVal.vStr _, TypeTag.tString => true
  | JVal.vInt _, TypeTag.tInt => true
  | JVal.vNum _, TypeTag.tFloat => true
  | JVal.vBool _, TypeTag.tBool => true
  | _, _ => false

/-- Go `int64(f)` for a float64 payload: truncation toward zero. -/
def ratTrunc (q : Rat) : Int :=
  q.num.tdiv q.den

namespace P1

/-- `var ErrorMissing = "missing"` (default value of the process-wide
configurable reason string). -/
def ErrorMissing : String := "missing"

/-- `var ErrorInvalid = "invalid"` (default value). -/
def ErrorInvalid : String := "invalid"

/-- The `Picker` struct of the newest revision:
`data`, `errors map[string]string`, `parentPicker *Picker`, `parentKey`.
The Go pointer to the parent is an index into the `World`. -/
structure PickerObj where
  data : JObj
  errors : List (String × String)
  parentPicker : Option Nat
  parentKey : String

/-- The allocation state: every `Picker` created so far, by allocation order.
A Go `*Picker` is an index into this list. -/
structure World where
  pickers : List PickerObj

def World.empty : World := ⟨[]⟩

/-- Dereference a picker pointer. -/
def World.get (w : World) (pid : Nat) : Option PickerObj :=
  w.pickers[pid]?

/-- Write back through a picker pointer. -/
def World.set (w : World) (pid : Nat) (p : PickerObj) : World :=
  ⟨w.pickers.set pid p⟩

/-- Allocate a fresh `Picker` object, returning its pointer. -/
def World.alloc (w : World) (p : PickerObj) : World × Nat :=
  (⟨w.pickers ++ [p]⟩, w.pickers.length)

/-- `newPicker(data)`: a root picker — empty collector, no parent. -/
def newPicker (w : World) (data : JObj) : World × Nat :=
  w.alloc ⟨data, [], none, ""⟩

/-- `newNestedPicker(data, parent, key)`. -/
def newNestedPicker (w : World) (data : JObj) (parent : Nat) (key : String) :
    World × Nat :=
  w.alloc ⟨data, [], some parent, key⟩

/-- `HasKey(key)`: `_, ok := p.data[key]`. -/
def HasKey (w : World) (pid : Nat) (key : String) : Bool :=
  match w.get pid with
  | some p => (jLookup p.data key).isSome
  | none => false

/-- `SetError(key, reason)`: if the picker has a parent, write
`parentKey + "." + key ↦ reason` directly into the parent's `errors` map;
otherwise write `key ↦ reason` into its own `errors` map.
(Note: the Go code writes `p.parentPicker.errors[...]` — a single hop, not a
recursive delegation.) -/
def SetError (w : World) (pid : Nat) (key reason : String) : World :=
  match w.get pid with
  | none => w
  | some p =>
      match p.parentPicker with
      | some q =>
          match w.get q with
          | none => w
          | some pq =>
              w.set q { pq with errors := mapInsert pq.errors (p.parentKey ++ "." ++ key) reason }
      | none => w.set pid { p with errors := mapInsert p.errors key reason }

/-- `SetInvalid(key)`. -/
def SetInvalid (w : World) (pid : Nat) (key : String) : World :=
  SetError w pid key ErrorInvalid

/-- `addError(key)`: classify as "invalid" when the key is present in the
local mapping, "missing" otherwise, then record via `SetError`. -/
def addError (w : World) (pid : Nat) (key : String) : World :=
  SetError w pid key (if HasKey w pid key then ErrorInvalid else ErrorMissing)

/-- The `PickerError` struct: the collected path → reason map. -/
structure PickerError where
  Errors : List (String × String)

/-- `Confirm()` of this revision: return the collector as a `*PickerError`
when non-empty, else `nil`.  (This revision has no root-only check.) -/
def Confirm (w : World) (pid : Nat) : Option PickerError :=
  match w.get pid with
  | some p => if p.errors.length > 0 then some ⟨p.errors⟩ else none
  | none => none

/-- The `NestedPickerArray` struct: declaring key, parent pointer, and the
realized child pickers.  `nestedKey` is declared in the Go struct but the
constructor `newNestedPickerArray` never assigns it, so it always holds the
Go zero value `""`. -/
structure NestedPickerArray where
  nestedKey : String
  parent : Nat
  Items : List Nat

/-- `newNestedPickerArray(parent, items)`: sets only `parent` and `Items`;
`nestedKey` is left at its Go zero value `""`. -/
def newNestedPickerArray (parent : Nat) (items : List Nat) : NestedPickerArray :=
  { nestedKey := "", parent := parent, Items := items }

/-- `Nested(key)`: wrap the mapping at `key` as a child parented to `pid`;
on absence or wrong shape record an error and wrap an empty mapping. -/
def Nested (w : World) (pid : Nat) (key : String) : World × Nat :=
  match w.get pid with
  | none => newNestedPicker w [] pid key
  | some p =>
      match jLookup p.data key with
      | some (JVal.vObj m) => newNestedPicker w m pid key
      | _ => newNestedPicker (addError w pid key) [] pid key

/-- `GetString(key)`: `p.data[key].(string)`, recording an error and
returning `""` when the assertion fails. -/
def GetString (w : World) (pid : Nat) (key : String) : World × String :=
  match w.get pid with
  | none => (w, "")
  | some p =>
      match jLookup p.data key with
      | some (JVal.vStr s) => (w, s)
      | _ => (addError w pid key, "")

/-- `GetInt(key)`: `p.data[key].(float64)` then truncate to `int64`;
recording an error and returning `0` when the assertion fails. -/
def GetInt (w : World) (pid : Nat) (key : String) : World × Int :=
  match w.get pid with
  | none => (w, 0)
  | some p =>
      match jLookup p.data key with
      | some (JVal.vNum q) => (w, ratTrunc q)
      | _ => (addError w pid key, 0)

/-- The element loop of `NestedArray(key)`: one child per source element,
in order.  A mapping element is wrapped via `newPicker(itemMap)` — a fresh
*root* picker, with no parent link; any other element records one error at
`key` against `pid` and is replaced by a `newPicker` over an empty
mapping. -/
def NestedArrayLoop (w : World) (pid : Nat) (key : String) :
    List JVal → World × List Nat
  | [] => (w, [])
  | item :: rest =>
      match item with
      | JVal.vObj m =>
          let wc := newPicker w m
          let wr := NestedArrayLoop wc.1 pid key rest
          (wr.1, wc.2 :: wr.2)
      | _ =>
          let wc := newPicker (addError w pid key) []
          let wr := NestedArrayLoop wc.1 pid key rest
          (wr.1, wc.2 :: wr.2)

/-- `NestedArray(key)`: if the value at `key` is not a sequence, record an
error and return an empty child list; otherwise realize one child picker
per element. -/
def NestedArray (w : World) (pid : Nat) (key : String) :
    World × NestedPickerArray :=
  match w.get pid with
  | none => (w, newNestedPickerArray pid [])
  | some p =>
      match jLookup p.data key with
      | some (JVal.vArr items) =>
          let wl := NestedArrayLoop w pid key items
          (wl.1, newNestedPickerArray pid wl.2)
      | _ => (addError w pid key, newNestedPickerArray pid [])

/-- `GetItem(index)`: bounds-checked access into the child list.  Out of
range: record an error at `nestedKey + "[" + index + "]"` against the
parent and return a fresh empty root picker.  In range: the `index`-th
child (the `getD` default is unreachable under the guard). -/
def GetItem (w : World) (npa : NestedPickerArray) (index : Int) :
    World × Nat :=
  if index < 0 ∨ (npa.Items.length : Int) ≤ index then
    let wa := addError w npa.parent (npa.nestedKey ++ "[" ++ toString index ++ "]")
    newPicker wa []
  else
    (w, npa.Items.getD index.toNat 0)

/-- The element loop of `GetTypedArray[T]`: coerce every element via the
type assertion, failing on the first mismatch. -/
def collectTyped (tag : TypeTag) : List JVal → Option (List JVal)
  | [] => some []
  | item :: rest =>
      if assertTag item tag then (collectTyped tag rest).map (item :: ·)
      else none

/-- `GetTypedArray[T](p, key)`: if the value at `key` is not a sequence, or
any element fails the assertion to `T`, record one error at `key` and
return an empty slice; otherwise return the coerced elements. -/
def GetTypedArray (w : World) (pid : Nat) (key : String) (tag : TypeTag) :
    World × List JVal :=
  match w.get pid with
  | none => (w, [])
  | some p =>
      match jLookup p.data key with
      | some (JVal.vArr items) =>
          match collectTyped tag items with
          | none => (addError w pid key, [])
          | some result => (w, result)
      | _ => (addError w pid key, [])

/-- The Go type assertion `p.data[key].(string)` as a partial read (used to
state when `GetString` fails). -/
def strAt (data : JObj) (key : String) : Option String :=
  match jLookup data key with
  | some (JVal.vStr s) => some s
  | _ => none

/-- The Go slice type assertion on `p.data[key]` as a partial read (used to
state the branches of `NestedArray` / `GetTypedArray`). -/
def arrAt (data : JObj) (key : String) : Option (List JVal) :=
  match jLookup data key with
  | some (JVal.vArr items) => some items
  | _ => none

/-- The Go `error` values that the pick entry points return: either a
`*PickerError` (validation failure) or the error of the external decoder
(`json.Unmarshal`), which is not a `*PickerError`. -/
inductive GoErr where
  | pickerError (e : PickerError)
  | decodeError (msg : String)

/-- `HasDetail(err)`: the type assertion `err.(*PickerError)` succeeds. -/
def HasDetail : GoErr → Bool
  | GoErr.pickerError _ => true
  | GoErr.decodeError _ => false

/-- `Detail(err)`: the `Errors` map when `err` is a `*PickerError`, else an
empty map. -/
def Detail : GoErr → List (String × String)
  | GoErr.pickerError e => e.Errors
  | GoErr.decodeError _ => []

/-- `Pick(data, fn)`: build a root picker over `data`, run `fn`, then
`Confirm`; on a non-nil confirm discard the result and return the Go zero
value of the result type (passed in as `zero`, since Lean types have no
canonical zero) together with the error. -/
def Pick {α : Type} (zero : α) (data : JObj) (fn : World → Nat → World × α) :
    α × Option GoErr :=
  let wi := newPicker World.empty data
  let wr := fn wi.1 wi.2
  match Confirm wr.1 wi.2 with
  | some e => (zero, some (GoErr.pickerError e))
  | none => (wr.2, none)

/-- `PickFromJson(jsonStr, fn)`: run the external decoder (`ParseJson`,
i.e. `json.Unmarshal` — an external collaborator, so it enters the model as
the function parameter `decode`), short-circuiting on a decode error,
otherwise delegating to `Pick`. -/
def PickFromJson {α : Type} (decode : String → Except String JObj) (zero : α)
    (s : String) (fn : World → Nat → World × α) : α × Option GoErr :=
  match decode s with
  | Except.error msg => (zero, some (GoErr.decodeError msg))
  | Except.ok data =>
      match Pick zero data fn with
      | (_, some e) => (zero, some e)
      | (r, none) => (r, none)

end P1

/-! ## Concrete scenarios used by the claims -/

/-- C1 scenario: the 3-level document `{a:{b:{c:"wrong-type-expected-int"}}}`. -/
def c1doc : JObj :=
  [("a", JVal.vObj [("b", JVal.vObj [("c", JVal.vStr "wrong-type-expected-int")])])]

/-- The world after `root := newPicker(c1doc); pa := root.Nested("a");
pb := pa.Nested("b"); pb.GetInt("c")`, together with the three pointers. -/
def c1run : P1.World × Nat × Nat × Nat :=
  let wr := P1.newPicker P1.World.empty c1doc
  let wa := P1.Nested wr.1 wr.2 "a"
  let wb := P1.Nested wa.1 wa.2 "b"
  let wf := P1.GetInt wb.1 wb.2 "c"
  (wf.1, wr.2, wa.2, wb.2)

/-- Concrete decoder used by the C3 witness: fails on `"bad"`, succeeds on
anything else with the document `{"age": "x"}`. -/
def c3decode : String → Except String JObj :=
  fun s => if s = "bad" then Except.error "unexpected end of JSON input"
           else Except.ok [("age", JVal.vStr "x")]

/-- Concrete extraction function used by the C3 witness. -/
def c3fn : P1.World → Nat → P1.World × Int :=
  fun w pid => P1.GetInt w pid "age"

/-- C5 scenario: `{k: [{}]}` — a one-element array of mappings. -/
def c5doc : JObj := [("k", JVal.vArr [JVal.vObj []])]

/-- The world after `root := newPicker(c5doc); npa := root.NestedArray("k")`,
with the root pointer and the array accessor. -/
def c5run : P1.World × Nat × P1.NestedPickerArray :=
  let wr := P1.newPicker P1.World.empty c5doc
  let wa := P1.NestedArray wr.1 wr.2 "k"
  (wa.1, wr.2, wa.2)

/-- The world after additionally calling `GetString("f")` on the first
element picker of the C5 array. -/
def c5final : P1.World :=
  (P1.GetString c5run.1 (c5run.2.2.Items.getD 0 0) "f").1

/-- C6 scenario: `{items: [{"n":1}, "not-an-object", {"n":2}]}`. -/
def c6doc : JObj :=
  [("items", JVal.vArr
    [JVal.vObj [("n", JVal.vNum 1)], JVal.vStr "not-an-object",
     JVal.vObj [("n", JVal.vNum 2)]])]

/-- The world after `root := newPicker(c6doc); root.NestedArray("items")`. -/
def c6run : P1.World × Nat × P1.NestedPickerArray :=
  let wr := P1.newPicker P1.World.empty c6doc
  let wa := P1.NestedArray wr.1 wr.2 "items"
  (wa.1, wr.2, wa.2)

/-- C7 scenario: `{nums: [1, 2, "x"]}` with `int64` elements (as the
repository's own test data builds such arrays). -/
def c7doc : JObj :=
  [("nums", JVal.vArr [JVal.vInt 1, JVal.vInt 2, JVal.vStr "x"])]

/-- The result of `GetTypedArray[int64](root, "nums")` over `c7doc`. -/
def c7run : P1.World × List JVal :=
  let wr := P1.newPicker P1.World.empty c7doc
  P1.GetTypedArray wr.1 wr.2 "nums" TypeTag.tInt

/-- C8 scenario: `{items: []}` — an empty array, then indexed access. -/
def c8doc : JObj := [("items", JVal.vArr [])]

/-- The world after `root := newPicker(c8doc); root.NestedArray("items")`. -/
def c8run : P1.World × Nat × P1.NestedPickerArray :=
  let wr := P1.newPicker P1.World.empty c8doc
  let wa := P1.NestedArray wr.1 wr.2 "items"
  (wa.1, wr.2, wa.2)

namespace P2

/-- The `Picker` struct of the older revision: `data`,
`errorKeys []string`, `isNested bool`, `nestedPicker *Picker`,
`nestedKey`. -/
structure PickerObj where
  data : JObj
  errorKeys : List String
  isNested : Bool
  nestedPicker : Option Nat
  nestedKey : String

/-- Allocation state for the older revision, as for `P1.World`. -/
structure World where
  pickers : List PickerObj

def World.empty : World := ⟨[]⟩

def World.get (w : World) (pid : Nat) : Option PickerObj :=
  w.pickers[pid]?

def World.set (w : World) (pid : Nat) (p : PickerObj) : World :=
  ⟨w.pickers.set pid p⟩

def World.alloc (w : World) (p : PickerObj) : World × Nat :=
  (⟨w.pickers ++ [p]⟩, w.pickers.length)

/-- `NewPicker(data)`: a root picker (`isNested = false`, no parent). -/
def NewPicker (w : World) (data : JObj) : World × Nat :=
  w.alloc ⟨data, [], false, none, ""⟩

/-- `newNestedPicker(data, parent, key)`: `isNested = true` with the parent
pointer and the nesting key. -/
def newNestedPicker (w : World) (data : JObj) (parent : Nat) (key : String) :
    World × Nat :=
  w.alloc ⟨data, [], true, some parent, key⟩

/-- `addError(key)` of the older revision: a nested picker delegates
`nestedKey + "." + key` to its parent, *recursively*, until the root
appends the full dotted key to its `errorKeys` list.  The constructors
only ever store a parent allocated strictly earlier, so the stored pointer
index is smaller than the picker's own; the guard `q < pid` expresses that
and makes the pointer chase well-founded (a cyclic chain is unreachable
through the API, and would not terminate in Go either). -/
def addError (w : World) (pid : Nat) (key : String) : World :=
  match w.get pid with
  | none => w
  | some p =>
      if p.isNested then
        match p.nestedPicker with
        | some q =>
            if h : q < pid then addError w q (p.nestedKey ++ "." ++ key) else w
        | none => w
      else w.set pid { p with errorKeys := p.errorKeys ++ [key] }
termination_by pid

/-- `HasKey(key)`. -/
def HasKey (w : World) (pid : Nat) (key : String) : Bool :=
  match w.get pid with
  | some p => (jLookup p.data key).isSome
  | none => false

/-- `GetString(key)`. -/
def GetString (w : World) (pid : Nat) (key : String) : World × String :=
  match w.get pid with
  | none => (w, "")
  | some p =>
      match jLookup p.data key with
      | some (JVal.vStr s) => (w, s)
      | _ => (addError w pid key, "")

/-- `GetInt(key)`: `p.data[key].(float64)` truncated to `int64` (this
revision's numeric getter, matching the decoder's float representation). -/
def GetInt (w : World) (pid : Nat) (key : String) : World × Int :=
  match w.get pid with
  | none => (w, 0)
  | some p =>
      match jLookup p.data key with
      | some (JVal.vNum q) => (w, ratTrunc q)
      | _ => (addError w pid key, 0)

/-- `GetFloat(key)`. -/
def GetFloat (w : World) (pid : Nat) (key : String) : World × Rat :=
  match w.get pid with
  | none => (w, 0)
  | some p =>
      match jLookup p.data key with
      | some (JVal.vNum q) => (w, q)
      | _ => (addError w pid key, 0)

/-- `GetBool(key)`. -/
def GetBool (w : World) (pid : Nat) (key : String) : World × Bool :=
  match w.get pid with
  | none => (w, false)
  | some p =>
      match jLookup p.data key with
      | some (JVal.vBool b) => (w, b)
      | _ => (addError w pid key, false)

/-- `Nested(key)` of the older revision. -/
def Nested (w : World) (pid : Nat) (key : String) : World × Nat :=
  match w.get pid with
  | none => newNestedPicker w [] pid key
  | some p =>
      match jLookup p.data key with
      | some (JVal.vObj m) => newNestedPicker w m pid key
      | _ => newNestedPicker (addError w pid key) [] pid key

/-- The `NestedPickerArray` struct of the older revision (`nestedKey` again
never assigned by the constructor). -/
structure NestedPickerArray where
  nestedKey : String
  parent : Nat
  Items : List Nat

/-- Element loop of `NestedArray(key)`: mapping elements become fresh root
pickers via `NewPicker`; others record one error at `key` and get an
empty-mapping root picker. -/
def NestedArrayLoop (w : World) (pid : Nat) (key : String) :
    List JVal → World × List Nat
  | [] => (w, [])
  | item :: rest =>
      match item with
      | JVal.vObj m =>
          let wc := NewPicker w m
          let wr := NestedArrayLoop wc.1 pid key rest
          (wr.1, wc.2 :: wr.2)
      | _ =>
          let wc := NewPicker (addError w pid key) []
          let wr := NestedArrayLoop wc.1 pid key rest
          (wr.1, wc.2 :: wr.2)

/-- `NestedArray(key)` of the older revision. -/
def NestedArray (w : World) (pid : Nat) (key : String) :
    World × NestedPickerArray :=
  match w.get pid with
  | none => (w, { nestedKey := "", parent := pid, Items := [] })
  | some p =>
      match jLookup p.data key with
      | some (JVal.vArr items) =>
          let wl := NestedArrayLoop w pid key items
          (wl.1, { nestedKey := "", parent := pid, Items := wl.2 })
      | _ => (addError w pid key, { nestedKey := "", parent := pid, Items := [] })

/-- `convert[T](items)`: coerce every element, failing on the first
mismatch. -/
def convert (tag : TypeTag) : List JVal → Option (List JVal)
  | [] => some []
  | item :: rest =>
      if assertTag item tag then (convert tag rest).map (item :: ·)
      else none

/-- `GetTypedArray[T](p, key)` of the older revision. -/
def GetTypedArray (w : World) (pid : Nat) (key : String) (tag : TypeTag) :
    World × List JVal :=
  match w.get pid with
  | none => (w, [])
  | some p =>
      match jLookup p.data key with
      | some (JVal.vArr items) =>
          match convert tag items with
          | none => (addError w pid key, [])
          | some result => (w, result)
      | _ => (addError w pid key, [])

/-- `Confirm()` of the older revision: a nested picker is refused outright
with a usage-contract error; a root returns a validation error listing the
collected keys when any exist, else `nil`. -/
def Confirm (p : PickerObj) : Option String :=
  if p.isNested then some "cannot confirm a nested picker directly"
  else if p.errorKeys.length > 0 then
    some ("errors in keys: " ++ String.intercalate ", " p.errorKeys)
  else none

/-- `picker.Confirm()` through a pointer. -/
def ConfirmAt (w : World) (pid : Nat) : Option String :=
  match w.get pid with
  | some p => Confirm p
  | none => none

/-! ### The reflection struct binder (`struct.go`) -/

/-- The declared type of a Go struct field, as the binder's `switch` on
`field.Kind()` dispatches on it: primitive kinds, an embedded struct, a
pointer to a struct, a slice of structs, or a slice of primitives.  Struct
types are referred to by name through an environment so that
self-referential Go types (`type Node struct { Child *Node }`) are
representable.  (The `time.Time` and `math/big` special cases of the Go
switch are outside the modeled field kinds.) -/
inductive GoTy where
  | tyString
  | tyInt
  | tyFloat
  | tyBool
  | tyStruct (name : String)
  | tyPtrStruct (name : String)
  | tySliceStruct (name : String)
  | tySlicePrim (tag : TypeTag)

/-- A struct type: the `json` tag and declared kind of each field, in
declaration order. -/
abbrev StructDef := List (String × GoTy)

/-- The named struct types of a program (reflection's view of the type
graph). -/
abbrev TyEnv := List (String × StructDef)

/-- A populated binding target: what the binder wrote into the target
struct's fields. -/
inductive BoundVal where
  | vS (s : String)
  | vI (n : Int)
  | vF (x : Rat)
  | vB (b : Bool)
  | vRec (fields : List (String × BoundVal))
  | vList (items : List BoundVal)
  | vNone

/-- A primitive slice element as the binder stores it. -/
def jvalToBound : JVal → BoundVal
  | JVal.vStr s => BoundVal.vS s
  | JVal.vInt n => BoundVal.vI n
  | JVal.vNum x => BoundVal.vF x
  | JVal.vBool b => BoundVal.vB b
  | _ => BoundVal.vNone

/-- `len(picker.errorKeys)` — read through the pointer. -/
def errCount (w : World) (pid : Nat) : Nat :=
  match w.get pid with
  | some p => p.errorKeys.length
  | none => 0

/-- `picker.errorKeys = picker.errorKeys[:n]` — the binder's removal of a
spurious float-attempt error. -/
def truncKeys (w : World) (pid : Nat) (n : Nat) : World :=
  match w.get pid with
  | some p => w.set pid { p with errorKeys := p.errorKeys.take n }
  | none => w

/-- The binder's loop over a slice-of-structs field (`for i, elemPicker :=
range pickerArray.Items`), binding each element at depth+1 (`bS` is the
recursive call one depth deeper) and wrapping an element failure as
`failed to convert slice element i in T.field: err`. -/
def bindItems (bS : World → Nat → String → World × Except String BoundVal)
    (sname fname tname : String) :
    World → List Nat → Nat → World × Except String (List BoundVal)
  | w, [], _ => (w, Except.ok [])
  | w, cid :: rest, i =>
      match bS w cid sname with
      | (w2, Except.error e) =>
          (w2, Except.error ("failed to convert slice element " ++ toString i
            ++ " in " ++ tname ++ "." ++ fname ++ ": " ++ e))
      | (w2, Except.ok v) =>
          match bindItems bS sname fname tname w2 rest (i + 1) with
          | (w3, Except.error e) => (w3, Except.error e)
          | (w3, Except.ok vs) => (w3, Except.ok (v :: vs))

/-- The binder's field loop (`for i := 0; i < val.NumField(); i++`): check
the `json` tag, dispatch on the declared kind, stop at the first failing
nested conversion.  `bS` is the recursive struct binding one depth
deeper. -/
def bindFields (bS : World → Nat → String → World × Except String BoundVal)
    (tname : String) :
    World → Nat → StructDef → World × Except String (List (String × BoundVal))
  | w, _, [] => (w, Except.ok [])
  | w, pid, (tag, ty) :: rest =>
      if tag = "" then
        (w, Except.error ("field " ++ tname ++ "." ++ tag
          ++ " missing required json tag"))
      else if tag = "-" then bindFields bS tname w pid rest
      else
        let step : World × Except String BoundVal :=
          match ty with
          | GoTy.tyString =>
              let g := GetString w pid tag
              (g.1, Except.ok (BoundVal.vS g.2))
          | GoTy.tyInt =>
              let before := errCount w pid
              let g := GetFloat w pid tag
              if errCount g.1 pid = before then
                (g.1, Except.ok (BoundVal.vI (ratTrunc g.2)))
              else
                let w2 := truncKeys g.1 pid before
                let g2 := GetInt w2 pid tag
                (g2.1, Except.ok (BoundVal.vI g2.2))
          | GoTy.tyFloat =>
              let g := GetFloat w pid tag
              (g.1, Except.ok (BoundVal.vF g.2))
          | GoTy.tyBool =>
              let g := GetBool w pid tag
              (g.1, Except.ok (BoundVal.vB g.2))
          | GoTy.tyStruct sname =>
              if HasKey w pid tag then
                let np := Nested w pid tag
                match bS np.1 np.2 sname with
                | (w2, Except.error e) =>
                    (w2, Except.error ("failed to convert nested struct "
                      ++ tname ++ "." ++ tag ++ ": " ++ e))
                | (w2, Except.ok v) => (w2, Except.ok v)
              else (w, Except.ok BoundVal.vNone)
          | GoTy.tyPtrStruct sname =>
              if HasKey w pid tag then
                let np := Nested w pid tag
                match bS np.1 np.2 sname with
                | (w2, Except.error e) =>
                    (w2, Except.error ("failed to convert nested struct pointer "
                      ++ tname ++ "." ++ tag ++ ": " ++ e))
                | (w2, Except.ok v) => (w2, Except.ok v)
              else (w, Except.ok BoundVal.vNone)
          | GoTy.tySliceStruct sname =>
              if HasKey w pid tag then
                let na := NestedArray w pid tag
                match bindItems bS sname tag tname na.1 na.2.Items 0 with
                | (w2, Except.error e) => (w2, Except.error e)
                | (w2, Except.ok vs) => (w2, Except.ok (BoundVal.vList vs))
              else (w, Except.ok BoundVal.vNone)
          | GoTy.tySlicePrim tg =>
              if HasKey w pid tag then
                let g := GetTypedArray w pid tag tg
                if g.2.length > 0 then
                  (g.1, Except.ok (BoundVal.vList (g.2.map jvalToBound)))
                else (g.1, Except.ok BoundVal.vNone)
              else (w, Except.ok BoundVal.vNone)
        match step with
        | (w2, Except.error e) => (w2, Except.error e)
        | (w2, Except.ok v) =>
            match bindFields bS tname w2 pid rest with
            | (w3, Except.error e) => (w3, Except.error e)
            | (w3, Except.ok vs) => (w3, Except.ok ((tag, v) :: vs))

/-- `pickerToStructWithDepth`, with the remaining depth budget
`fuel = maxDepth - currentDepth` as the structural recursion argument:
the Go entry check `currentDepth >= maxDepth` is exactly `fuel = 0`, and
the recursive calls at `currentDepth+1` are exactly the calls at
`fuel - 1`.  A call first enforces the depth bound, then resolves the
target struct type (Go: the target must be a pointer to a struct; here:
the name must resolve in the environment), binds every field, and finally
calls `Confirm` on the picker. -/
def bindStructGo (env : TyEnv) (maxDepth : Nat) :
    Nat → World → Nat → String → World × Except String BoundVal
  | 0, w, _, _ =>
      (w, Except.error ("maximum recursion depth (" ++ toString maxDepth
        ++ ") exceeded"))
  | fuel + 1, w, pid, tname =>
      match List.lookup tname env with
      | none => (w, Except.error "target must be a pointer to a struct")
      | some fields =>
          match bindFields
              (fun w2 pid2 nm => bindStructGo env maxDepth fuel w2 pid2 nm)
              tname w pid fields with
          | (w2, Except.error e) => (w2, Except.error e)
          | (w2, Except.ok vs) =>
              match ConfirmAt w2 pid with
              | some msg =>
                  (w2, Except.error ("errors occurred during mapping: " ++ msg))
              | none => (w2, Except.ok (BoundVal.vRec vs))

/-- `pickerToStructWithDepth(picker, target, currentDepth, maxDepth)` with
the Go signature: the depth counter pair is carried as its difference (see
`bindStructGo`; in `Nat`, `currentDepth ≥ maxDepth` iff
`maxDepth - currentDepth = 0`, and `maxDepth - (currentDepth+1) =
(maxDepth - currentDepth) - 1`, so this is an exact reformulation). -/
def pickerToStructWithDepth (env : TyEnv) (w : World) (pid : Nat)
    (tname : String) (currentDepth maxDepth : Nat) :
    World × Except String BoundVal :=
  bindStructGo env maxDepth (maxDepth - currentDepth) w pid tname

/-- `PickToStruct(jsonStr, target)`: decode (external decoder passed as
`decode`), build a root picker, bind with depth counter starting at 0 and
maximum 10. -/
def PickToStruct (decode : String → Except String JObj) (env : TyEnv)
    (s : String) (tname : String) : Except String BoundVal :=
  match decode s with
  | Except.error e => Except.error e
  | Except.ok data =>
      let np := NewPicker World.empty data
      (pickerToStructWithDepth env np.1 np.2 tname 0 10).2

end P2

/-- C10 scenario: the self-referential struct type
`type Node struct { Child Node json:"child" }`. -/
def nodeEnv : P2.TyEnv := [("Node", [("child", P2.GoTy.tyStruct "Node")])]

/-- A document nested `n` mappings deep under repeated `child` keys. -/
def nestObj : Nat → JObj
  | 0 => []
  | n + 1 => [("child", JVal.vObj (nestObj n))]

/-- Checks that a binder outcome is the depth-bound rejection (the Go
error text survives at the end of the wrapping chain). -/
def hasDepthErr : Except String P2.BoundVal → Bool
  | Except.error m =>
      ("maximum recursion depth (10) exceeded").data.isSuffixOf m.data
  | Except.ok _ => false

/-- Helper: a non-nil `Confirm` carries a non-empty collector. -/
theorem confirm_some_nonempty (w : P1.World) (pid : Nat) (pe : P1.PickerError)
    (h : P1.Confirm w pid = some pe) : pe.Errors ≠ [] := by
  unfold P1.Confirm at h
  revert h
  cases hg : w.get pid with
  | none => intro h; simp at h
  | some p =>
      intro h
      dsimp only at h
      by_cases hl : p.errors.length > 0
      · rw [if_pos hl] at h
        cases h
        exact fun hnil => List.ne_nil_of_length_pos hl hnil
      · rw [if_neg hl] at h
        simp at h

/-- Helper: any error returned by `P1.Pick` is a `PickerError` whose map is
the (non-empty) root collector. -/
theorem pick_error_nonempty {α : Type} (zero : α) (data : JObj)
    (fn : P1.World → Nat → P1.World × α) (r : α) (e : P1.GoErr)
    (h : P1.Pick zero data fn = (r, some e)) :
    ∃ errs, e = P1.GoErr.pickerError ⟨errs⟩ ∧ errs ≠ [] := by
  simp only [P1.Pick] at h
  revert h
  cases hc : P1.Confirm (fn (P1.newPicker P1.World.empty data).1
      (P1.newPicker P1.World.empty data).2).1
      (P1.newPicker P1.World.empty data).2 with
  | none => intro h; simp at h
  | some pe =>
      intro h
      simp only [Prod.mk.injEq, Option.some.injEq] at h
      have hne := confirm_some_nonempty _ _ _ hc
      exact ⟨pe.Errors, by rw [← h.2], hne⟩

/-- **C2**: the orchestration contract of `Pick`.  The first conjunct is the
general law: for every data map, zero value and extraction function, `Pick`
returns the zero value together with a `PickerError` carrying exactly the
root collector when that collector is non-empty after running `fn`, and
`fn`'s result with no error otherwise.  The remaining conjuncts run the
spec's Scenario A (`{"name":"John","age":"not-a-number"}`): `fn` produces
`("John", 0)`, yet `Pick` discards it and returns the zero value with the
detail map `{"age": "invalid"}`. -/
theorem c2_pick_orchestration :
    (∀ (α : Type) (zero : α) (data : JObj) (fn : P1.World → Nat → P1.World × α),
      P1.Pick zero data fn =
        (let wi := P1.newPicker P1.World.empty data
         let wr := fn wi.1 wi.2
         let errs := ((wr.1.get wi.2).map P1.PickerObj.errors).getD []
         if errs.isEmpty then (wr.2, none)
         else (zero, some (P1.GoErr.pickerError ⟨errs⟩)))) ∧
    (let data : JObj := [("name", JVal.vStr "John"), ("age", JVal.vStr "not-a-number")]
     let fn := fun (w : P1.World) (pid : Nat) =>
       let ws := P1.GetString w pid "name"
       let wi := P1.GetInt ws.1 pid "age"
       (wi.1, (ws.2, wi.2))
     (fn (P1.newPicker P1.World.empty data).1 (P1.newPicker P1.World.empty data).2).2
         = ("John", 0) ∧
     P1.Pick ("", (0 : Int)) data fn
         = (("", 0), some (P1.GoErr.pickerError ⟨[("age", "invalid")]⟩)) ∧
     P1.Detail (P1.GoErr.pickerError ⟨[("age", "invalid")]⟩) = [("age", "invalid")]) := by
  constructor
  · intro α zero data fn
    unfold P1.Pick P1.Confirm
    cases hg : (fn (P1.newPicker P1.World.empty data).1
        (P1.newPicker P1.World.empty data).2).1.get
        (P1.newPicker P1.World.empty data).2 with
    | none => simp [hg]
    | some p =>
        cases hp : p.errors with
        | nil => simp [hg, hp]
        | cons a l => simp [hg, hp]
  · exact ⟨rfl, rfl, rfl⟩

/-- **C3**: structural failure is disjoint from validation failure.
First conjunct: a decode failure makes `PickFromJson` return the decode
error, which carries no path detail (`HasDetail` false, `Detail` empty).
Second conjunct: on a decode failure the outcome does not depend on the
extraction function at all (it is never invoked).  Third conjunct: when the
document decodes and `PickFromJson` fails, the error is a `PickerError`
(`HasDetail` true) whose detail map is non-empty. -/
theorem c3_decode_vs_validation :
    (∀ (α : Type) (zero : α) (decode : String → Except String JObj) (s : String)
        (fn : P1.World → Nat → P1.World × α) (msg : String),
      decode s = Except.error msg →
      P1.PickFromJson decode zero s fn = (zero, some (P1.GoErr.decodeError msg)) ∧
      P1.HasDetail (P1.GoErr.decodeError msg) = false ∧
      P1.Detail (P1.GoErr.decodeError msg) = []) ∧
    (∀ (α : Type) (zero : α) (decode : String → Except String JObj) (s : String)
        (fn fn2 : P1.World → Nat → P1.World × α) (msg : String),
      decode s = Except.error msg →
      P1.PickFromJson decode zero s fn = P1.PickFromJson decode zero s fn2) ∧
    (∀ (α : Type) (zero : α) (decode : String → Except String JObj) (s : String)
        (fn : P1.World → Nat → P1.World × α) (data : JObj) (r : α) (e : P1.GoErr),
      decode s = Except.ok data →
      P1.PickFromJson decode zero s fn = (r, some e) →
      P1.HasDetail e = true ∧ P1.Detail e ≠ []) := by
  refine ⟨?_, ?_, ?_⟩
  · intro α zero decode s fn msg hd
    unfold P1.PickFromJson
    rw [hd]
    exact ⟨rfl, rfl, rfl⟩
  · intro α zero decode s fn fn2 msg hd
    unfold P1.PickFromJson
    rw [hd]
  · intro α zero decode s fn data r e hd h
    unfold P1.PickFromJson at h
    rw [hd] at h
    cases hp : P1.Pick zero data fn with
    | mk r2 oe =>
        cases oe with
        | none => simp only [hp] at h; simp at h
        | some e2 =>
            simp only [hp, Prod.mk.injEq, Option.some.injEq] at h
            obtain ⟨errs, he2, hne⟩ := pick_error_nonempty zero data fn r2 e2 hp
            rw [← h.2, he2]
            exact ⟨rfl, by simpa [P1.Detail] using hne⟩

/-- Witness for C3: instantiates all three conjuncts at `c3decode`. -/
theorem c3_decode_vs_validation_witness :
    (P1.PickFromJson c3decode (0 : Int) "bad" c3fn
        = (0, some (P1.GoErr.decodeError "unexpected end of JSON input")) ∧
      P1.HasDetail (P1.GoErr.decodeError "unexpected end of JSON input") = false ∧
      P1.Detail (P1.GoErr.decodeError "unexpected end of JSON input") = []) ∧
    (P1.PickFromJson c3decode (0 : Int) "bad" c3fn
        = P1.PickFromJson c3decode (0 : Int) "bad" (fun w _ => (w, 7))) ∧
    (P1.HasDetail (P1.GoErr.pickerError ⟨[("age", "invalid")]⟩) = true ∧
      P1.Detail (P1.GoErr.pickerError ⟨[("age", "invalid")]⟩) ≠ []) :=
  ⟨c3_decode_vs_validation.1 Int 0 c3decode "bad" c3fn
      "unexpected end of JSON input" rfl,
   c3_decode_vs_validation.2.1 Int 0 c3decode "bad" c3fn (fun w _ => (w, 7))
      "unexpected end of JSON input" rfl,
   c3_decode_vs_validation.2.2 Int 0 c3decode "ok" c3fn
      [("age", JVal.vStr "x")] 0
      (P1.GoErr.pickerError ⟨[("age", "invalid")]⟩) rfl rfl⟩

/-- **C1** (code_bug evaluation).  On `{a:{b:{c:"wrong-type-expected-int"}}}`,
`GetInt("c")` on the picker reached via `Nested("a").Nested("b")` does *not*
record `a.b.c ↦ invalid` in the root collector: `SetError` hops only one
level up, so the entry lands in the intermediate picker for `"a"` under the
partial path `"b.c"`, the root collector stays empty, and the root's
`Confirm` succeeds — the recorded error is silently lost.  The claim (and
the README's `user.profile.email` example) require the full dotted path at
the root. -/
theorem c1_seterror_one_hop_bug :
    ((c1run.1.get c1run.2.1).map P1.PickerObj.errors) = some [] ∧
    ((c1run.1.get c1run.2.2.1).map P1.PickerObj.errors) = some [("b.c", "invalid")] ∧
    ((c1run.1.get c1run.2.2.2).map P1.PickerObj.errors) = some [] ∧
    P1.Confirm c1run.1 c1run.2.1 = none := by
  refine ⟨rfl, rfl, rfl, rfl⟩

/-! ## World-preservation helpers for the array accessor -/

/-- Helper: allocation preserves every existing picker. -/
theorem world_get_alloc (w : P1.World) (p : P1.PickerObj) (i : Nat)
    (q : P1.PickerObj) (h : w.get i = some q) : (w.alloc p).1.get i = some q := by
  unfold P1.World.get P1.World.alloc at *
  have hl : i < w.pickers.length := (List.getElem?_eq_some.mp h).1
  simpa [List.getElem?_append, hl] using h

/-- Helper: the freshly allocated picker sits at the returned pointer. -/
theorem world_get_alloc_self (w : P1.World) (p : P1.PickerObj) :
    (w.alloc p).1.get (w.alloc p).2 = some p := by
  unfold P1.World.get P1.World.alloc
  exact List.getElem?_concat_length _ _

/-- Helper: `SetError` changes at most the `errors` field of one existing
picker; data and parent links of every picker are untouched. -/
theorem setError_get_shape (w : P1.World) (pid : Nat) (key reason : String)
    (i : Nat) (q : P1.PickerObj) (h : w.get i = some q) :
    ∃ e, (P1.SetError w pid key reason).get i = some { q with errors := e } := by
  have hlen : i < w.pickers.length := (List.getElem?_eq_some.mp h).1
  unfold P1.SetError
  cases hp : w.get pid with
  | none => exact ⟨q.errors, h⟩
  | some p =>
      dsimp only
      cases hpp : p.parentPicker with
      | none =>
          dsimp only
          by_cases hip : pid = i
          · subst hip
            have hpq : p = q := Option.some.inj (hp.symm.trans h)
            subst hpq
            refine ⟨mapInsert p.errors key reason, ?_⟩
            unfold P1.World.set P1.World.get
            rw [hpp]
            exact List.getElem?_set_self hlen
          · refine ⟨q.errors, ?_⟩
            unfold P1.World.set P1.World.get
            rw [List.getElem?_set_ne hip]
            exact h
      | some par =>
          dsimp only
          cases hq : w.get par with
          | none => exact ⟨q.errors, h⟩
          | some pq =>
              dsimp only
              by_cases hip : par = i
              · subst hip
                have hpq2 : pq = q := Option.some.inj (hq.symm.trans h)
                subst hpq2
                refine ⟨mapInsert pq.errors (p.parentKey ++ "." ++ key) reason, ?_⟩
                unfold P1.World.set P1.World.get
                exact List.getElem?_set_self hlen
              · refine ⟨q.errors, ?_⟩
                unfold P1.World.set P1.World.get
                rw [List.getElem?_set_ne hip]
                exact h

/-- Helper: `addError` has the same shape-preservation property. -/
theorem addError_get_shape (w : P1.World) (pid : Nat) (key : String)
    (i : Nat) (q : P1.PickerObj) (h : w.get i = some q) :
    ∃ e, (P1.addError w pid key).get i = some { q with errors := e } := by
  unfold P1.addError
  exact setError_get_shape w pid key _ i q h

/-- Helper: the `NestedArray` element loop preserves the data and parent
link of every picker that already existed. -/
theorem nestedArrayLoop_get_shape (arr : List JVal) :
    ∀ (w : P1.World) (pid : Nat) (key : String) (i : Nat) (q : P1.PickerObj),
      w.get i = some q →
      ∃ e, (P1.NestedArrayLoop w pid key arr).1.get i = some { q with errors := e } := by
  induction arr with
  | nil => exact fun w pid key i q h => ⟨q.errors, h⟩
  | cons item rest ih =>
      intro w pid key i q h
      cases item with
      | vObj m =>
          exact ih (P1.newPicker w m).1 pid key i q
            (world_get_alloc w ⟨m, [], none, ""⟩ i q h)
      | vStr s =>
          obtain ⟨e1, he1⟩ := addError_get_shape w pid key i q h
          exact ih (P1.newPicker (P1.addError w pid key) []).1 pid key i
            { q with errors := e1 }
            (world_get_alloc (P1.addError w pid key) ⟨[], [], none, ""⟩ i
              { q with errors := e1 } he1)
      | vNum x =>
          obtain ⟨e1, he1⟩ := addError_get_shape w pid key i q h
          exact ih (P1.newPicker (P1.addError w pid key) []).1 pid key i
            { q with errors := e1 }
            (world_get_alloc (P1.addError w pid key) ⟨[], [], none, ""⟩ i
              { q with errors := e1 } he1)
      | vInt n =>
          obtain ⟨e1, he1⟩ := addError_get_shape w pid key i q h
          exact ih (P1.newPicker (P1.addError w pid key) []).1 pid key i
            { q with errors := e1 }
            (world_get_alloc (P1.addError w pid key) ⟨[], [], none, ""⟩ i
              { q with errors := e1 } he1)
      | vBool b =>
          obtain ⟨e1, he1⟩ := addError_get_shape w pid key i q h
          exact ih (P1.newPicker (P1.addError w pid key) []).1 pid key i
            { q with errors := e1 }
            (world_get_alloc (P1.addError w pid key) ⟨[], [], none, ""⟩ i
              { q with errors := e1 } he1)
      | vNull =>
          obtain ⟨e1, he1⟩ := addError_get_shape w pid key i q h
          exact ih (P1.newPicker (P1.addError w pid key) []).1 pid key i
            { q with errors := e1 }
            (world_get_alloc (P1.addError w pid key) ⟨[], [], none, ""⟩ i
              { q with errors := e1 } he1)
      | vArr its =>
          obtain ⟨e1, he1⟩ := addError_get_shape w pid key i q h
          exact ih (P1.newPicker (P1.addError w pid key) []).1 pid key i
            { q with errors := e1 }
            (world_get_alloc (P1.addError w pid key) ⟨[], [], none, ""⟩ i
              { q with errors := e1 } he1)

/-- Helper: every child the `NestedArray` element loop realizes is a *root*
picker (`parentPicker = none`, `parentKey = ""`). -/
theorem nestedArrayLoop_children (arr : List JVal) :
    ∀ (w : P1.World) (pid : Nat) (key : String) (cid : Nat),
      cid ∈ (P1.NestedArrayLoop w pid key arr).2 →
      ∃ d e, (P1.NestedArrayLoop w pid key arr).1.get cid = some ⟨d, e, none, ""⟩ := by
  induction arr with
  | nil =>
      intro w pid key cid hc
      simp [P1.NestedArrayLoop] at hc
  | cons item rest ih =>
      intro w pid key cid hc
      cases item with
      | vObj m =>
          have hc2 : cid = (P1.newPicker w m).2 ∨
              cid ∈ (P1.NestedArrayLoop (P1.newPicker w m).1 pid key rest).2 :=
            List.mem_cons.mp hc
          rcases hc2 with hh | ht
          · subst hh
            have hself : (P1.newPicker w m).1.get (P1.newPicker w m).2 =
                some ⟨m, [], none, ""⟩ := world_get_alloc_self w ⟨m, [], none, ""⟩
            obtain ⟨e, he⟩ := nestedArrayLoop_get_shape rest (P1.newPicker w m).1
              pid key (P1.newPicker w m).2 ⟨m, [], none, ""⟩ hself
            exact ⟨m, e, he⟩
          · exact ih (P1.newPicker w m).1 pid key cid ht
      | vStr s =>
          have hc2 : cid = (P1.newPicker (P1.addError w pid key) []).2 ∨
              cid ∈ (P1.NestedArrayLoop (P1.newPicker (P1.addError w pid key) []).1
                pid key rest).2 := List.mem_cons.mp hc
          rcases hc2 with hh | ht
          · subst hh
            obtain ⟨e, he⟩ := nestedArrayLoop_get_shape rest _ pid key _ _
              (world_get_alloc_self (P1.addError w pid key) ⟨[], [], none, ""⟩)
            exact ⟨[], e, he⟩
          · exact ih _ pid key cid ht
      | vNum x =>
          have hc2 : cid = (P1.newPicker (P1.addError w pid key) []).2 ∨
              cid ∈ (P1.NestedArrayLoop (P1.newPicker (P1.addError w pid key) []).1
                pid key rest).2 := List.mem_cons.mp hc
          rcases hc2 with hh | ht
          · subst hh
            obtain ⟨e, he⟩ := nestedArrayLoop_get_shape rest _ pid key _ _
              (world_get_alloc_self (P1.addError w pid key) ⟨[], [], none, ""⟩)
            exact ⟨[], e, he⟩
          · exact ih _ pid key cid ht
      | vInt n =>
          have hc2 : cid = (P1.newPicker (P1.addError w pid key) []).2 ∨
              cid ∈ (P1.NestedArrayLoop (P1.newPicker (P1.addError w pid key) []).1
                pid key rest).2 := List.mem_cons.mp hc
          rcases hc2 with hh | ht
          · subst hh
            obtain ⟨e, he⟩ := nestedArrayLoop_get_shape rest _ pid key _ _
              (world_get_alloc_self (P1.addError w pid key) ⟨[], [], none, ""⟩)
            exact ⟨[], e, he⟩
          · exact ih _ pid key cid ht
      | vBool b =>
          have hc2 : cid = (P1.newPicker (P1.addError w pid key) []).2 ∨
              cid ∈ (P1.NestedArrayLoop (P1.newPicker (P1.addError w pid key) []).1
                pid key rest).2 := List.mem_cons.mp hc
          rcases hc2 with hh | ht
          · subst hh
            obtain ⟨e, he⟩ := nestedArrayLoop_get_shape rest _ pid key _ _
              (world_get_alloc_self (P1.addError w pid key) ⟨[], [], none, ""⟩)
            exact ⟨[], e, he⟩
          · exact ih _ pid key cid ht
      | vNull =>
          have hc2 : cid = (P1.newPicker (P1.addError w pid key) []).2 ∨
              cid ∈ (P1.NestedArrayLoop (P1.newPicker (P1.addError w pid key) []).1
                pid key rest).2 := List.mem_cons.mp hc
          rcases hc2 with hh | ht
          · subst hh
            obtain ⟨e, he⟩ := nestedArrayLoop_get_shape rest _ pid key _ _
              (world_get_alloc_self (P1.addError w pid key) ⟨[], [], none, ""⟩)
            exact ⟨[], e, he⟩
          · exact ih _ pid key cid ht
      | vArr its =>
          have hc2 : cid = (P1.newPicker (P1.addError w pid key) []).2 ∨
              cid ∈ (P1.NestedArrayLoop (P1.newPicker (P1.addError w pid key) []).1
                pid key rest).2 := List.mem_cons.mp hc
          rcases hc2 with hh | ht
          · subst hh
            obtain ⟨e, he⟩ := nestedArrayLoop_get_shape rest _ pid key _ _
              (world_get_alloc_self (P1.addError w pid key) ⟨[], [], none, ""⟩)
            exact ⟨[], e, he⟩
          · exact ih _ pid key cid ht

/-- Helper: the element loop realizes one child per source element. -/
theorem nestedArrayLoop_length (arr : List JVal) :
    ∀ (w : P1.World) (pid : Nat) (key : String),
      (P1.NestedArrayLoop w pid key arr).2.length = arr.length := by
  induction arr with
  | nil => intro w pid key; rfl
  | cons item rest ih =>
      intro w pid key
      cases item with
      | vObj m =>
          show (P1.NestedArrayLoop (P1.newPicker w m).1 pid key rest).2.length + 1
              = rest.length + 1
          exact congrArg (fun n => n + 1) (ih (P1.newPicker w m).1 pid key)
      | vStr s =>
          show (P1.NestedArrayLoop (P1.newPicker (P1.addError w pid key) []).1
              pid key rest).2.length + 1 = rest.length + 1
          exact congrArg (fun n => n + 1) (ih _ pid key)
      | vNum x =>
          show (P1.NestedArrayLoop (P1.newPicker (P1.addError w pid key) []).1
              pid key rest).2.length + 1 = rest.length + 1
          exact congrArg (fun n => n + 1) (ih _ pid key)
      | vInt n =>
          show (P1.NestedArrayLoop (P1.newPicker (P1.addError w pid key) []).1
              pid key rest).2.length + 1 = rest.length + 1
          exact congrArg (fun n => n + 1) (ih _ pid key)
      | vBool b =>
          show (P1.NestedArrayLoop (P1.newPicker (P1.addError w pid key) []).1
              pid key rest).2.length + 1 = rest.length + 1
          exact congrArg (fun n => n + 1) (ih _ pid key)
      | vNull =>
          show (P1.NestedArrayLoop (P1.newPicker (P1.addError w pid key) []).1
              pid key rest).2.length + 1 = rest.length + 1
          exact congrArg (fun n => n + 1) (ih _ pid key)
      | vArr its =>
          show (P1.NestedArrayLoop (P1.newPicker (P1.addError w pid key) []).1
              pid key rest).2.length + 1 = rest.length + 1
          exact congrArg (fun n => n + 1) (ih _ pid key)

/-! ## Claims C4 - C8 -/

/-- **C4**: missing-versus-invalid classification.  First conjunct: on a
root picker, `addError` records in the collector exactly the key with
reason "invalid" when the key is present in the local mapping and
"missing" when it is absent — the classification is recomputed from key
presence at the moment of recording.  Second conjunct: whenever the string
type assertion fails, `GetString` records via `addError` and returns `""`.
The last two conjuncts are the spec's P4 examples: on `{}` a required
string getter on `x` records "missing"; on `{x: 42}` it records
"invalid". -/
theorem c4_missing_vs_invalid :
    (∀ (data : JObj) (errs : List (String × String)) (key : String),
      P1.addError ⟨[⟨data, errs, none, ""⟩]⟩ 0 key =
        ⟨[⟨data,
            mapInsert errs key
              (if (jLookup data key).isSome then P1.ErrorInvalid else P1.ErrorMissing),
            none, ""⟩]⟩) ∧
    (∀ (w : P1.World) (pid : Nat) (key : String) (p : P1.PickerObj),
      w.get pid = some p → P1.strAt p.data key = none →
      P1.GetString w pid key = (P1.addError w pid key, "")) ∧
    (((P1.GetString (P1.newPicker P1.World.empty []).1 0 "x").1.get 0).map
        P1.PickerObj.errors = some [("x", P1.ErrorMissing)]) ∧
    (((P1.GetString (P1.newPicker P1.World.empty
        [("x", JVal.vNum 42)]).1 0 "x").1.get 0).map
        P1.PickerObj.errors = some [("x", P1.ErrorInvalid)]) := by
  refine ⟨?_, ?_, rfl, rfl⟩
  · intro data errs key
    rfl
  · intro w pid key p hg hs
    unfold P1.GetString
    split
    · next hnone => rw [hg] at hnone; cases hnone
    · next p2 hsome =>
        rw [hg] at hsome
        injection hsome with hp2
        subst hp2
        split
        · next s hstr =>
            unfold P1.strAt at hs
            rw [hstr] at hs
            cases hs
        · rfl

/-- Witness for C4 (second conjunct has hypotheses): on the concrete world
over `{x: 42}`, `GetString` fails and is exactly `addError` plus `""`. -/
theorem c4_missing_vs_invalid_witness :
    P1.GetString (P1.newPicker P1.World.empty [("x", JVal.vNum 42)]).1 0 "x" =
      (P1.addError (P1.newPicker P1.World.empty [("x", JVal.vNum 42)]).1 0 "x", "") :=
  c4_missing_vs_invalid.2.1 (P1.newPicker P1.World.empty [("x", JVal.vNum 42)]).1
    0 "x" ⟨[("x", JVal.vNum 42)], [], none, ""⟩ rfl rfl

/-- **C5** counterexample.  On `{k: [{}]}`, the single element picker built
by `NestedArray("k")` has *no* parent link (`parentPicker = none`), and a
failing `GetString("f")` on it leaves the root collector empty — in
particular no entry `k.f` exists anywhere in the root collector, contrary
to the claim that element field errors surface at the root keyed
`k.f`. -/
theorem c5_keyed_path_counterexample :
    ((c5run.1.get (c5run.2.2.Items.getD 0 0)).map P1.PickerObj.parentPicker)
        = some none ∧
    c5run.2.2.Items = [1] ∧
    ((c5final.get c5run.2.1).map P1.PickerObj.errors) = some [] ∧
    (((c5final.get c5run.2.1).map P1.PickerObj.errors).getD []).lookup "k.f"
        = none := by
  exact ⟨rfl, rfl, rfl, rfl⟩

/-- **C5** amended: the elements of `NestedArray(key)` that are mappings
are wrapped as fresh *root* pickers (`newPicker`, no parent link), so a
required-getter failure on a field of an element is recorded only in that
element's own collector and never reaches the declaring picker's root
collector.  First conjunct: every realized child of any `NestedArray` call
is parentless.  The concrete conjuncts re-run the `{k: [{}]}` scenario:
the failing `GetString("f")` records `f ↦ missing` in the element's own
collector while the root collector stays empty. -/
theorem c5_array_elements_are_roots :
    (∀ (w : P1.World) (pid : Nat) (key : String) (cid : Nat),
      cid ∈ (P1.NestedArray w pid key).2.Items →
      ((P1.NestedArray w pid key).1.get cid).map P1.PickerObj.parentPicker
        = some none) ∧
    ((c5final.get 1).map P1.PickerObj.errors = some [("f", P1.ErrorMissing)]) ∧
    ((c5final.get c5run.2.1).map P1.PickerObj.errors = some []) := by
  refine ⟨?_, rfl, rfl⟩
  intro w pid key cid hc
  unfold P1.NestedArray at *
  revert hc
  cases hg : w.get pid with
  | none =>
      intro hc
      simp [P1.newNestedPickerArray] at hc
  | some p =>
      dsimp only
      cases hj : jLookup p.data key with
      | none =>
          intro hc
          simp [P1.newNestedPickerArray] at hc
      | some v =>
          cases v with
          | vArr items =>
              intro hc
              obtain ⟨d, e, he⟩ := nestedArrayLoop_children items w pid key cid hc
              rw [he]
              rfl
          | vStr s => intro hc; simp [P1.newNestedPickerArray] at hc
          | vNum x => intro hc; simp [P1.newNestedPickerArray] at hc
          | vInt n => intro hc; simp [P1.newNestedPickerArray] at hc
          | vBool b => intro hc; simp [P1.newNestedPickerArray] at hc
          | vNull => intro hc; simp [P1.newNestedPickerArray] at hc
          | vObj m => intro hc; simp [P1.newNestedPickerArray] at hc

/-- Witness for C5's amended theorem: the element picker of the `{k: [{}]}`
scenario is parentless. -/
theorem c5_array_elements_are_roots_witness :
    ((P1.NestedArray (P1.newPicker P1.World.empty c5doc).1
        (P1.newPicker P1.World.empty c5doc).2 "k").1.get 1).map
      P1.PickerObj.parentPicker = some none :=
  c5_array_elements_are_roots.1 (P1.newPicker P1.World.empty c5doc).1
    (P1.newPicker P1.World.empty c5doc).2 "k" 1 (by decide)

/-- **C6**: array length preservation with a single array-level error.
First conjunct: whenever the value at `key` is a sequence, `NestedArray`
realizes exactly one child per source element, whatever the elements are.
The concrete conjuncts run `NestedArray("items")` over
`[{"n":1}, "not-an-object", {"n":2}]`: the child list has length 3, the
child at index 1 wraps an empty mapping, and the root collector holds
exactly the single entry `items ↦ invalid`. -/
theorem c6_length_preserved_single_error :
    (∀ (w : P1.World) (pid : Nat) (key : String) (p : P1.PickerObj)
        (items : List JVal),
      w.get pid = some p → P1.arrAt p.data key = some items →
      (P1.NestedArray w pid key).2.Items.length = items.length) ∧
    c6run.2.2.Items.length = 3 ∧
    ((c6run.1.get (c6run.2.2.Items.getD 1 0)).map P1.PickerObj.data = some []) ∧
    ((c6run.1.get c6run.2.1).map P1.PickerObj.errors
        = some [("items", P1.ErrorInvalid)]) := by
  refine ⟨?_, rfl, rfl, rfl⟩
  intro w pid key p items hg ha
  unfold P1.NestedArray
  split
  · next hnone => rw [hg] at hnone; cases hnone
  · next p2 hsome =>
      rw [hg] at hsome
      injection hsome with hp2
      subst hp2
      split
      · next its harr =>
          unfold P1.arrAt at ha
          rw [harr] at ha
          injection ha with hits
          subst hits
          exact nestedArrayLoop_length its w pid key
      · next hnotarr =>
          unfold P1.arrAt at ha
          revert ha
          cases hj : jLookup p.data key with
          | none => intro ha; cases ha
          | some v =>
              cases v with
              | vArr its => intro ha; exact absurd hj (hnotarr its)
              | vStr s => intro ha; cases ha
              | vNum x => intro ha; cases ha
              | vInt n => intro ha; cases ha
              | vBool b => intro ha; cases ha
              | vNull => intro ha; cases ha
              | vObj m => intro ha; cases ha

/-- Witness for C6: length preservation at the concrete mixed array. -/
theorem c6_length_preserved_single_error_witness :
    (P1.NestedArray (P1.newPicker P1.World.empty c6doc).1
        (P1.newPicker P1.World.empty c6doc).2 "items").2.Items.length
      = ([JVal.vObj [("n", JVal.vNum 1)], JVal.vStr "not-an-object",
          JVal.vObj [("n", JVal.vNum 2)]] : List JVal).length :=
  c6_length_preserved_single_error.1 (P1.newPicker P1.World.empty c6doc).1
    (P1.newPicker P1.World.empty c6doc).2 "items" ⟨c6doc, [], none, ""⟩ _ rfl rfl

/-- **C7**: typed-array extraction is all-or-nothing.  Conjuncts 1-3
characterize `GetTypedArray` completely: when the value at `key` is not a
sequence, or any element fails the assertion (so `collectTyped` returns
`none`), the result world is exactly one `addError` at `key` (a single
entry at the field's own path, never one per element) and the returned
slice is empty; when every element coerces, the world is untouched and the
coerced elements are returned.  The last conjunct runs the spec's P6
example `[1, 2, "x"]` with integer elements: empty result and exactly the
one collector entry `nums ↦ invalid`. -/
theorem c7_typed_array_all_or_nothing :
    (∀ (w : P1.World) (pid : Nat) (key : String) (tag : TypeTag)
        (p : P1.PickerObj),
      w.get pid = some p → P1.arrAt p.data key = none →
      P1.GetTypedArray w pid key tag = (P1.addError w pid key, [])) ∧
    (∀ (w : P1.World) (pid : Nat) (key : String) (tag : TypeTag)
        (p : P1.PickerObj) (items : List JVal),
      w.get pid = some p → P1.arrAt p.data key = some items →
      P1.collectTyped tag items = none →
      P1.GetTypedArray w pid key tag = (P1.addError w pid key, [])) ∧
    (∀ (w : P1.World) (pid : Nat) (key : String) (tag : TypeTag)
        (p : P1.PickerObj) (items result : List JVal),
      w.get pid = some p → P1.arrAt p.data key = some items →
      P1.collectTyped tag items = some result →
      P1.GetTypedArray w pid key tag = (w, result)) ∧
    (c7run.2 = [] ∧
      (c7run.1.get 0).map P1.PickerObj.errors
        = some [("nums", P1.ErrorInvalid)] ∧
      (((c7run.1.get 0).map P1.PickerObj.errors).getD []).length = 1) := by
  refine ⟨?_, ?_, ?_, rfl, rfl, rfl⟩
  · intro w pid key tag p hg ha
    unfold P1.GetTypedArray
    split
    · next hnone => rw [hg] at hnone; cases hnone
    · next p2 hsome =>
        rw [hg] at hsome
        injection hsome with hp2
        subst hp2
        split
        · next its harr =>
            unfold P1.arrAt at ha
            rw [harr] at ha
            cases ha
        · rfl
  · intro w pid key tag p items hg ha hcol
    unfold P1.GetTypedArray
    split
    · next hnone => rw [hg] at hnone; cases hnone
    · next p2 hsome =>
        rw [hg] at hsome
        injection hsome with hp2
        subst hp2
        split
        · next its harr =>
            unfold P1.arrAt at ha
            rw [harr] at ha
            injection ha with hits
            subst hits
            rw [hcol]
        · next hnotarr =>
            unfold P1.arrAt at ha
            revert ha
            cases hj : jLookup p.data key with
            | none => intro ha; cases ha
            | some v =>
                cases v with
                | vArr its => intro ha; exact absurd hj (hnotarr its)
                | vStr s => intro ha; cases ha
                | vNum x => intro ha; cases ha
                | vInt n => intro ha; cases ha
                | vBool b => intro ha; cases ha
                | vNull => intro ha; cases ha
                | vObj m => intro ha; cases ha
  · intro w pid key tag p items result hg ha hcol
    unfold P1.GetTypedArray
    split
    · next hnone => rw [hg] at hnone; cases hnone
    · next p2 hsome =>
        rw [hg] at hsome
        injection hsome with hp2
        subst hp2
        split
        · next its harr =>
            unfold P1.arrAt at ha
            rw [harr] at ha
            injection ha with hits
            subst hits
            rw [hcol]
        · next hnotarr =>
            unfold P1.arrAt at ha
            revert ha
            cases hj : jLookup p.data key with
            | none => intro ha; cases ha
            | some v =>
                cases v with
                | vArr its => intro ha; exact absurd hj (hnotarr its)
                | vStr s => intro ha; cases ha
                | vNum x => intro ha; cases ha
                | vInt n => intro ha; cases ha
                | vBool b => intro ha; cases ha
                | vNull => intro ha; cases ha
                | vObj m => intro ha; cases ha

/-- Witness for C7: conjunct 2 applied at the concrete `[1, 2, "x"]`
scenario (third element fails the integer assertion). -/
theorem c7_typed_array_all_or_nothing_witness :
    P1.GetTypedArray (P1.newPicker P1.World.empty c7doc).1 0 "nums"
        TypeTag.tInt
      = (P1.addError (P1.newPicker P1.World.empty c7doc).1 0 "nums", []) :=
  c7_typed_array_all_or_nothing.2.1 (P1.newPicker P1.World.empty c7doc).1
    0 "nums" TypeTag.tInt ⟨c7doc, [], none, ""⟩
    [JVal.vInt 1, JVal.vInt 2, JVal.vStr "x"] rfl rfl rfl

/-- **C8** (code_bug evaluation).  On `{items: []}` the array accessor's
`nestedKey` field holds `""` (the constructor `newNestedPickerArray` never
assigns it), so the out-of-range accesses `GetItem(0)` and `GetItem(-1)`
record the paths `"[0]"` and `"[-1]"` — not `"items[0]"` / `"items[-1]"`
as the claim requires.  The bounds check itself does engage (no
out-of-range indexing happens; a placeholder empty root picker is
returned, shown by its recorded shape below). -/
theorem c8_getitem_bracket_path_bug :
    c8run.2.2.nestedKey = "" ∧
    (((P1.GetItem c8run.1 c8run.2.2 0).1.get c8run.2.1).map
        P1.PickerObj.errors = some [("[0]", P1.ErrorMissing)]) ∧
    ((((P1.GetItem c8run.1 c8run.2.2 0).1.get c8run.2.1).map
        P1.PickerObj.errors).getD []).lookup "items[0]" = none ∧
    (((P1.GetItem c8run.1 c8run.2.2 0).1.get
        (P1.GetItem c8run.1 c8run.2.2 0).2).map P1.PickerObj.data = some []) ∧
    (((P1.GetItem c8run.1 c8run.2.2 (-1)).1.get c8run.2.1).map
        P1.PickerObj.errors = some [("[-1]", P1.ErrorMissing)]) := by
  exact ⟨rfl, rfl, rfl, rfl, rfl⟩

/-! ## Claims C9 - C10 (older revision and struct binder) -/

/-- Helper: the freshly allocated picker of the older revision sits at the
returned pointer. -/
theorem p2_world_get_alloc_self (w : P2.World) (p : P2.PickerObj) :
    (w.alloc p).1.get (w.alloc p).2 = some p := by
  unfold P2.World.get P2.World.alloc
  exact List.getElem?_concat_length _ _

/-- **C9**: `Confirm` is root-only.  Conjunct 1: every picker created as a
nested accessor (`newNestedPicker`, i.e. with a parent) is refused by
`Confirm` with the usage-contract error, regardless of its collector.
Conjunct 2: a freshly created root picker confirms successfully.
Conjunct 3: `Confirm` returns `nil` exactly on a non-nested picker with an
empty collector.  Conjunct 4: the usage-contract message differs from
every validation-failure message, so the two outcomes are reported
distinctly (decode failures are produced before any `Confirm` runs and
never pass through it). -/
theorem c9_confirm_root_only :
    (∀ (w : P2.World) (data : JObj) (parent : Nat) (key : String),
      ((P2.newNestedPicker w data parent key).1.get
          (P2.newNestedPicker w data parent key).2).map P2.Confirm
        = some (some "cannot confirm a nested picker directly")) ∧
    (∀ (w : P2.World) (data : JObj),
      ((P2.NewPicker w data).1.get (P2.NewPicker w data).2).map P2.Confirm
        = some none) ∧
    (∀ p : P2.PickerObj,
      P2.Confirm p = none ↔ p.isNested = false ∧ p.errorKeys = []) ∧
    (∀ keys : List String,
      ("cannot confirm a nested picker directly" : String)
        ≠ "errors in keys: " ++ String.intercalate ", " keys) := by
  refine ⟨?_, ?_, ?_, ?_⟩
  · intro w data parent key
    show ((w.alloc ⟨data, [], true, some parent, key⟩).1.get
        (w.alloc ⟨data, [], true, some parent, key⟩).2).map P2.Confirm = _
    rw [p2_world_get_alloc_self]
    rfl
  · intro w data
    show ((w.alloc ⟨data, [], false, none, ""⟩).1.get
        (w.alloc ⟨data, [], false, none, ""⟩).2).map P2.Confirm = _
    rw [p2_world_get_alloc_self]
    rfl
  · intro p
    cases hn : p.isNested with
    | true => simp [P2.Confirm, hn]
    | false =>
        cases he : p.errorKeys with
        | nil => simp [P2.Confirm, hn, he]
        | cons a l => simp [P2.Confirm, hn, he]
  · intro keys h
    have h2 : ("cannot confirm a nested picker directly").data.head?
        = ("errors in keys: " ++ String.intercalate ", " keys).data.head? := by
      rw [h]
    rw [String.data_append] at h2
    have h3 : (some 'c' : Option Char) = some 'e' := h2
    exact absurd h3 (by decide)

/-- Witness for C9: the usage error on a concrete nested picker, and the
message distinctness at a concrete key list. -/
theorem c9_confirm_root_only_witness :
    ((P2.newNestedPicker P2.World.empty [] 0 "user").1.get
        (P2.newNestedPicker P2.World.empty [] 0 "user").2).map P2.Confirm
      = some (some "cannot confirm a nested picker directly") ∧
    ("cannot confirm a nested picker directly" : String)
      ≠ "errors in keys: " ++ String.intercalate ", " ["a", "b"] :=
  ⟨c9_confirm_root_only.1 P2.World.empty [] 0 "user",
   c9_confirm_root_only.2.2.2 ["a", "b"]⟩

set_option maxRecDepth 16000

/-- **C10**: the struct binder's fixed depth bound.  Conjunct 1: whenever
the current depth has reached the maximum, `pickerToStructWithDepth`
returns the "maximum recursion depth exceeded" error without touching the
world — for every environment, world, picker and type, so the binder can
never recurse past the bound (and, being a total function, it terminates
on every input, including self-referential struct types).  Conjunct 2:
`PickToStruct` runs the binder with the counter starting at 0 and maximum
10.  Conjunct 3: on the self-referential type `Node` with a document
nested 12 deep, `PickToStruct` is rejected with the depth error. -/
theorem c10_depth_bound :
    (∀ (env : P2.TyEnv) (w : P2.World) (pid : Nat) (tname : String)
        (d m : Nat), m ≤ d →
      P2.pickerToStructWithDepth env w pid tname d m =
        (w, Except.error ("maximum recursion depth (" ++ toString m
          ++ ") exceeded"))) ∧
    (∀ (decode : String → Except String JObj) (env : P2.TyEnv)
        (s tname : String) (data : JObj), decode s = Except.ok data →
      P2.PickToStruct decode env s tname =
        (P2.pickerToStructWithDepth env (P2.NewPicker P2.World.empty data).1
          (P2.NewPicker P2.World.empty data).2 tname 0 10).2) ∧
    hasDepthErr (P2.PickToStruct (fun _ => Except.ok (nestObj 12)) nodeEnv
      "doc" "Node") = true := by
  refine ⟨?_, ?_, ?_⟩
  · intro env w pid tname d m hdm
    unfold P2.pickerToStructWithDepth
    rw [Nat.sub_eq_zero_of_le hdm]
    rfl
  · intro decode env s tname data hd
    unfold P2.PickToStruct
    rw [hd]
  · rfl

/-- Witness for C10: the depth error at `currentDepth = maxDepth = 10`,
and the 0-to-10 orchestration at a concrete decoder. -/
theorem c10_depth_bound_witness :
    (P2.pickerToStructWithDepth nodeEnv (P2.NewPicker P2.World.empty []).1 0
        "Node" 10 10 =
      ((P2.NewPicker P2.World.empty []).1,
        Except.error ("maximum recursion depth (" ++ toString 10
          ++ ") exceeded"))) ∧
    (P2.PickToStruct (fun _ => Except.ok (nestObj 12)) nodeEnv "doc" "Node" =
      (P2.pickerToStructWithDepth nodeEnv
        (P2.NewPicker P2.World.empty (nestObj 12)).1
        (P2.NewPicker P2.World.empty (nestObj 12)).2 "Node" 0 10).2) :=
  ⟨c10_depth_bound.1 nodeEnv (P2.NewPicker P2.World.empty []).1 0 "Node" 10 10
      (Nat.le_refl 10),
   c10_depth_bound.2.1 (fun _ => Except.ok (nestObj 12)) nodeEnv "doc" "Node"
      (nestObj 12) rfl⟩
